import Mathlib

/-!
# Verification of the roaring-landmask core

Shallow embedding of `src/lib.rs` of the roaring-landmask crate.

The crate answers whether a geographic point lies on land, composing a
compressed bitmap grid index (`RoaringMask`, module `mask`) with an exact
shoreline polygon store (`Gshhg`, module `shapes`).  Only `lib.rs` is part
of the sources here; the bodies of `mask.rs` and `shapes.rs` are not, so
the two component `contains` functions are modelled from the design
document, while everything in `lib.rs` (the classifier composition,
`modulate_longitude`, the batch operations, `new`) is translated from the
source.

Real numbers of the source (`f64`) are modelled as rationals; the inputs of
every concrete evaluation below are exactly representable in `f64` and the
arithmetic on them is exact, so no rounding discrepancy is involved.
-/

namespace RoaringLandmaskSpec

/-- Truncation toward zero of a rational, the rounding used by Rust's `%`
remainder on `f64`. -/
def ratTrunc (q : ℚ) : ℤ :=
  if 0 ≤ q then ⌊q⌋ else ⌈q⌉

/-- Rust's `%` on floating-point values: the remainder `a - b * trunc (a/b)`,
whose sign follows the dividend `a`. -/
def rustRem (a b : ℚ) : ℚ :=
  a - b * (ratTrunc (a / b) : ℚ)

/-- Translated from `lib.rs` (fn `modulate_longitude`): documented as
"Move longitude into -180 to 180 domain", computed as
`((lon + 180.) % 360.) - 180.` with Rust `%` semantics. -/
def modulate_longitude (lon : ℚ) : ℚ :=
  rustRem (lon + 180) 360 - 180

/-- Modelled from the spec: the Grid Transform's longitude normalization of
section 4.1, which "normalizes longitude into the half-open range
[-180°, 180°) using periodic (modulo-360) arithmetic".  This is the
mathematical mod-360 reduction (floor-based), used below for the components
whose sources (`mask.rs`, `shapes.rs`) are not available. -/
def canonicalLongitude (lon : ℚ) : ℚ :=
  ((lon + 180) - 360 * (⌊(lon + 180) / 360⌋ : ℚ)) - 180

/-- A load-time data error (spec section 7: dataset missing, truncated or
structurally invalid), carried by the fallible constructors. -/
structure DataError where
  msg : String
deriving DecidableEq

/-- Modelled from the spec: the Land Bitmap Index (`mask.rs` is not among
the sources).  Section 4.2 describes `contains` as computing the grid cell
of the (normalized) coordinate and testing membership in the per-row
compressed set; the claims under study never depend on the cell indexing
itself, so the membership test after normalization is kept abstract as
`cellLand`. -/
structure RoaringMask where
  cellLand : ℚ → ℚ → Bool

/-- Modelled from the spec: the Shoreline Vector Store (`shapes.rs` is not
among the sources).  Section 4.3 describes `contains` as normalizing the
longitude first and then running the exact point-in-polygon test, kept
abstract as `polyContains`. -/
structure Gshhg where
  polyContains : ℚ → ℚ → Bool

/-- Modelled from the spec: `RoaringMask.contains` computes the cell via the
Grid Transform and tests membership (section 4.2).  The Grid Transform
"fails with a range error if latitude is outside [-90°, 90°]"
(section 4.1); the observed source behavior is a process abort (tests
`test_not_on_earth_north/south` are `should_panic`), modelled as `none`. -/
def RoaringMask.contains (m : RoaringMask) (x y : ℚ) : Option Bool :=
  if y < -90 ∨ 90 < y then none
  else some (m.cellLand (canonicalLongitude x) y)

/-- Modelled from the spec: `Gshhg.contains` "normalizes longitude first
(consistent with the Grid Transform's domain)" and then applies the exact
polygon test (section 4.3). -/
def Gshhg.contains (g : Gshhg) (x y : ℚ) : Bool :=
  g.polyContains (canonicalLongitude x) y

/-- The classifier state of `lib.rs`: `pub struct RoaringLandmask`
with fields `mask: RoaringMask` and `shapes: Gshhg`. -/
structure RoaringLandmask where
  mask : RoaringMask
  shapes : Gshhg

/-- Translated from `lib.rs` (`RoaringLandmask::new`): runs
`RoaringMask::new()?`, then `Gshhg::new()?`, then wraps the two in the
struct.  The two loads (bodies in the absent `mask.rs`/`shapes.rs`) are
passed as parameters. -/
def RoaringLandmask.new (loadMask : Except DataError RoaringMask)
    (loadShapes : Except DataError Gshhg) : Except DataError RoaringLandmask := do
  let mask ← loadMask
  let shapes ← loadShapes
  return { mask, shapes }

/-- Translated from `lib.rs` (`RoaringLandmask::contains`):
`self.mask.contains(x, y) && self.shapes.contains(x, y)`.  The Rust `&&`
short-circuits: when the bitmap test yields `false` the shapes test is not
evaluated, which the `match` shape reflects; a process abort inside
`mask.contains` (latitude out of range) aborts the whole call (`none`). -/
def RoaringLandmask.contains (l : RoaringLandmask) (x y : ℚ) : Option Bool :=
  match l.mask.contains x y with
  | none => none
  | some b => if b then some (l.shapes.contains x y) else some false

/-- The boolean the classifier returns on inputs where it does not abort:
bitmap membership AND exact polygon containment. -/
def RoaringLandmask.containsB (l : RoaringLandmask) (x y : ℚ) : Bool :=
  l.mask.cellLand (canonicalLongitude x) y && l.shapes.polyContains (canonicalLongitude x) y

/-- Elementwise evaluation over a list where any aborting element aborts the
whole traversal and no partial output survives — the effect of mapping a
fallible closure over an iterator that is collected in full. -/
def mapOption (f : α → Option β) : List α → Option (List β)
  | [] => some []
  | a :: l => do
      let b ← f a
      let r ← mapOption f l
      return b :: r

/-- Translated from `lib.rs` (`RoaringLandmask::contains_many`):
`x.iter().zip(y.iter()).map(|(x, y)| self.contains(*x, *y))`, collected
exactly.  `Iterator::zip` stops at the shorter of the two sequences; no
length check is performed. -/
def RoaringLandmask.contains_many (l : RoaringLandmask) (xs ys : List ℚ) :
    Option (List Bool) :=
  mapOption (fun p => l.contains p.1 p.2) (xs.zip ys)

/-- Translated from `lib.rs` (`RoaringLandmask::contains_many_par`):
`Zip::from(&x).and(&y).par_map_collect(|x, y| self.contains(*x, *y))`.
`ndarray::Zip::and` asserts that the shapes agree and aborts the process
otherwise (modelled as `none`); `par_map_collect` applies the closure to
every element and collects the results by input index, so the output slot
`i` holds the value at input index `i` regardless of worker scheduling. -/
def RoaringLandmask.contains_many_par (l : RoaringLandmask) (xs ys : List ℚ) :
    Option (List Bool) :=
  if xs.length = ys.length then
    mapOption (fun i => l.contains (xs.getD i 0) (ys.getD i 0)) (List.range xs.length)
  else none

/-- A query against the classifier, as exposed by the `pymethods` block. -/
inductive Query where
  | single (x y : ℚ)
  | many (xs ys : List ℚ)
  | manyPar (xs ys : List ℚ)

/-- A query result: a single boolean or a boolean array (aborts as `none`). -/
inductive QueryResult where
  | single (r : Option Bool)
  | array (r : Option (List Bool))
deriving DecidableEq

/-- Dispatch one query.  Every query method takes `&self` (an immutable
borrow), so the classifier handed back is the one handed in: the state
threading makes the absence of mutation explicit. -/
def runQuery (l : RoaringLandmask) : Query → RoaringLandmask × QueryResult
  | .single x y => (l, .single (l.contains x y))
  | .many xs ys => (l, .array (l.contains_many xs ys))
  | .manyPar xs ys => (l, .array (l.contains_many_par xs ys))

/-- Run a sequence of queries, threading the classifier state through. -/
def runQueries (l : RoaringLandmask) : List Query → RoaringLandmask × List QueryResult
  | [] => (l, [])
  | q :: qs =>
      let p := runQuery l q
      let rest := runQueries p.1 qs
      (rest.1, p.2 :: rest.2)

/-! ## Test fixtures

Concrete component instances used to evaluate the model at specific
inputs: a bitmap marking no cell as land, a bitmap marking every cell as
land, and a polygon store containing every point. -/

/-- A bitmap index with no land cell. -/
def oceanMask : RoaringMask := { cellLand := fun _ _ => false }

/-- A bitmap index marking every cell as possible land. -/
def fullMask : RoaringMask := { cellLand := fun _ _ => true }

/-- A polygon store containing every point. -/
def fullShapes : Gshhg := { polyContains := fun _ _ => true }

/-- A classifier over an all-ocean bitmap. -/
def oceanLandmask : RoaringLandmask := { mask := oceanMask, shapes := fullShapes }

/-- A classifier over an all-land bitmap and all-containing shapes. -/
def fullLandmask : RoaringLandmask := { mask := fullMask, shapes := fullShapes }

/-! ## Helper lemmas -/

theorem canonicalLongitude_add_int_mul (lon : ℚ) (k : ℤ) :
    canonicalLongitude (lon + 360 * (k : ℚ)) = canonicalLongitude lon := by
  unfold canonicalLongitude
  have h : (lon + 360 * (k : ℚ) + 180) / 360 = (lon + 180) / 360 + (k : ℚ) := by
    field_simp
    ring
  rw [h, Int.floor_add_int]
  push_cast
  ring

theorem mask_contains_eq_some (m : RoaringMask) (x y : ℚ)
    (h₁ : -90 ≤ y) (h₂ : y ≤ 90) :
    m.contains x y = some (m.cellLand (canonicalLongitude x) y) := by
  unfold RoaringMask.contains
  rw [if_neg]
  push_neg
  exact ⟨by linarith, by linarith⟩

theorem landmask_contains_eq_some (l : RoaringLandmask) (x y : ℚ)
    (h₁ : -90 ≤ y) (h₂ : y ≤ 90) :
    l.contains x y = some (l.containsB x y) := by
  unfold RoaringLandmask.contains RoaringLandmask.containsB
  rw [mask_contains_eq_some l.mask x y h₁ h₂]
  cases hb : l.mask.cellLand (canonicalLongitude x) y <;>
    simp [Gshhg.contains]

theorem mapOption_congr {f g : α → Option β} {l : List α}
    (h : ∀ a ∈ l, f a = g a) : mapOption f l = mapOption g l := by
  induction l with
  | nil => rfl
  | cons a l ih =>
      simp only [mapOption, h a (List.mem_cons_self a l),
        ih fun a ha => h a (List.mem_cons_of_mem _ ha)]

theorem mapOption_eq_some_map {f : α → Option β} {g : α → β} {l : List α}
    (h : ∀ a ∈ l, f a = some (g a)) : mapOption f l = some (l.map g) := by
  induction l with
  | nil => rfl
  | cons a l ih =>
      simp only [mapOption, h a (List.mem_cons_self a l),
        ih fun a ha => h a (List.mem_cons_of_mem _ ha), List.map_cons]
      rfl

theorem mapOption_map {f : β → Option γ} {h : α → β} {l : List α} :
    mapOption f (l.map h) = mapOption (fun a => f (h a)) l := by
  induction l with
  | nil => rfl
  | cons a l ih => simp only [List.map_cons, mapOption, ih]

/-- Traversing `[0, …, l.length)` while reading `l` by index is the same as
traversing `l` itself. -/
theorem mapOption_range_getD {f : α → Option β} (l : List α) (d : α) :
    mapOption (fun i => f (l.getD i d)) (List.range l.length) = mapOption f l := by
  induction l with
  | nil => rfl
  | cons a l ih =>
      rw [List.length_cons, List.range_succ_eq_map, mapOption, mapOption_map]
      simp only [List.getD_cons_zero, List.getD_cons_succ]
      rw [ih, mapOption]

theorem getD_map_of_lt {g : α → β} {l : List α} {i : ℕ} (h : i < l.length)
    (d : β) (d₀ : α) : (l.map g).getD i d = g (l.getD i d₀) := by
  induction l generalizing i with
  | nil => simp at h
  | cons a l ih =>
      cases i with
      | zero => rfl
      | succ i =>
          simp only [List.map_cons, List.getD_cons_succ]
          exact ih (by simpa using h)

theorem getD_zip_of_lt {xs ys : List α} {i : ℕ}
    (hx : i < xs.length) (hy : i < ys.length) (d : α) :
    (xs.zip ys).getD i (d, d) = (xs.getD i d, ys.getD i d) := by
  induction xs generalizing ys i with
  | nil => simp at hx
  | cons x xs ih =>
      cases ys with
      | nil => simp at hy
      | cons y ys =>
          cases i with
          | zero => rfl
          | succ i =>
              simp only [List.zip_cons_cons, List.getD_cons_succ]
              exact ih (by simpa using hx) (by simpa using hy)

/-- Under in-range latitudes, `contains_many` evaluates to the elementwise
classifier results over the zipped input. -/
theorem contains_many_eq_map (l : RoaringLandmask) (xs ys : List ℚ)
    (hy : ∀ y ∈ ys, -90 ≤ y ∧ y ≤ 90) :
    l.contains_many xs ys =
      some ((xs.zip ys).map fun p => l.containsB p.1 p.2) := by
  unfold RoaringLandmask.contains_many
  refine mapOption_eq_some_map fun p hp => ?_
  rcases List.of_mem_zip hp with ⟨-, hpy⟩
  exact landmask_contains_eq_some l p.1 p.2 (hy p.2 hpy).1 (hy p.2 hpy).2

theorem runQuery_fst (l : RoaringLandmask) (q : Query) : (runQuery l q).1 = l := by
  cases q <;> rfl


/-! ## Claim theorems -/


/-- Shared specification of `contains_many` on arbitrary-length inputs with
in-range latitudes: some result, of the zipped length, elementwise equal to
the single-point classifier. -/
theorem contains_many_spec (l : RoaringLandmask) (xs ys : List ℚ)
    (hy : ∀ y ∈ ys, -90 ≤ y ∧ y ≤ 90) :
    ∃ r, l.contains_many xs ys = some r ∧ r.length = min xs.length ys.length ∧
      ∀ i, i < min xs.length ys.length →
        l.contains (xs.getD i 0) (ys.getD i 0) = some (r.getD i false) := by
  refine ⟨_, contains_many_eq_map l xs ys hy, by simp [List.length_zip], ?_⟩
  intro i hi
  have hx : i < xs.length := lt_of_lt_of_le hi (min_le_left _ _)
  have hy' : i < ys.length := lt_of_lt_of_le hi (min_le_right _ _)
  have hz : i < (xs.zip ys).length := by rw [List.length_zip]; exact hi
  rw [getD_map_of_lt hz false ((0 : ℚ), (0 : ℚ)), getD_zip_of_lt hx hy' 0]
  have hmem : ys.getD i 0 ∈ ys := by
    rw [List.getD_eq_getElem ys 0 hy']; exact List.getElem_mem hy'
  exact landmask_contains_eq_some l _ _ (hy _ hmem).1 (hy _ hmem).2

/-- C1: the classifier evaluates the bitmap test first; a `false` bitmap
answer makes the whole query `false` without consulting the vector store,
and a `true` bitmap answer makes the query return exactly the shoreline
store's answer. -/
theorem contains_short_circuit (l : RoaringLandmask) (x y : ℚ) :
    (l.mask.contains x y = some false → l.contains x y = some false) ∧
    (l.mask.contains x y = some true →
      l.contains x y = some (l.shapes.contains x y)) := by
  constructor <;> intro h <;> simp [RoaringLandmask.contains, h]

/-- Witness for C1 at the all-ocean classifier and the origin. -/
theorem contains_short_circuit_witness :
    oceanLandmask.mask.contains 0 0 = some false ∧
    oceanLandmask.contains 0 0 = some false := by
  have h : oceanLandmask.mask.contains 0 0 = some false := by
    unfold oceanLandmask oceanMask RoaringMask.contains
    norm_num
  exact ⟨h, (contains_short_circuit oceanLandmask 0 0).1 h⟩

/-- C2 (code bug): `modulate_longitude` does not move every longitude into
[-180, 180): Rust's `%` keeps the dividend's sign, so `-200` maps to `-200`,
below `-180`, while `160 = -200 + 360` maps to `160` — the two
360°-equivalent longitudes get different representatives. -/
theorem modulate_longitude_not_normalizing :
    modulate_longitude (-200) = -200 ∧ modulate_longitude 160 = 160 ∧
      modulate_longitude (-200) < -180 := by
  have h₁ : ((-200 : ℚ) + 180) / 360 = -(1/18) := by norm_num
  have hc : ⌈(-(1/18) : ℚ)⌉ = 0 := by norm_num
  have h₂ : ((160 : ℚ) + 180) / 360 = 17/18 := by norm_num
  have hf : ⌊(17/18 : ℚ)⌋ = 0 := by norm_num
  refine ⟨?_, ?_, ?_⟩ <;> simp only [modulate_longitude, rustRem, ratTrunc, h₁, h₂]
  · norm_num [hc]
  · norm_num [hf]
  · norm_num [hc]



/-- C3 counterexample: on inputs of lengths 2 and 1, `contains_many` does
not fail — it returns the (partial) length-1 result of the zipped prefix. -/
theorem contains_many_mismatch_counterexample :
    oceanLandmask.contains_many [0, 0] [0] = some [false] := by
  have h : oceanLandmask.contains 0 0 = some false := by
    unfold oceanLandmask oceanMask fullShapes RoaringLandmask.contains RoaringMask.contains
    norm_num
  simp [RoaringLandmask.contains_many, mapOption, h]

/-- C3 amended: on unequal lengths, `contains_many` raises no error and
returns the elementwise results over the zipped prefix of the shorter
length, while `contains_many_par` aborts (shape assertion) with no output. -/
theorem contains_many_mismatch_behavior (l : RoaringLandmask) (xs ys : List ℚ)
    (hlen : xs.length ≠ ys.length) (hy : ∀ y ∈ ys, -90 ≤ y ∧ y ≤ 90) :
    (∃ r, l.contains_many xs ys = some r ∧
        r.length = min xs.length ys.length) ∧
    l.contains_many_par xs ys = none := by
  refine ⟨⟨_, contains_many_eq_map l xs ys hy, by simp [List.length_zip]⟩, ?_⟩
  unfold RoaringLandmask.contains_many_par
  rw [if_neg hlen]

/-- Witness for the amended C3 at lengths 2 and 1. -/
theorem contains_many_mismatch_behavior_witness :
    (∃ r, oceanLandmask.contains_many [0, 0] [0] = some r ∧
        r.length = min ([0, 0] : List ℚ).length ([0] : List ℚ).length) ∧
    oceanLandmask.contains_many_par [0, 0] [0] = none :=
  contains_many_mismatch_behavior oceanLandmask [0, 0] [0] (by decide)
    (by intro y hy; rw [List.mem_singleton] at hy; subst hy; constructor <;> norm_num)

/-- C4: on unequal lengths `contains_many` raises no error, returning a
sequence of the shorter length whose element `i` is the single-point
classifier result at index `i`. -/
theorem contains_many_truncates (l : RoaringLandmask) (xs ys : List ℚ)
    (_hlen : xs.length ≠ ys.length) (hy : ∀ y ∈ ys, -90 ≤ y ∧ y ≤ 90) :
    ∃ r, l.contains_many xs ys = some r ∧ r.length = min xs.length ys.length ∧
      ∀ i, i < min xs.length ys.length →
        l.contains (xs.getD i 0) (ys.getD i 0) = some (r.getD i false) :=
  contains_many_spec l xs ys hy

/-- Witness for C4 at lengths 2 and 1. -/
theorem contains_many_truncates_witness :
    ∃ r, oceanLandmask.contains_many [0, 0] [0] = some r ∧
      r.length = min ([0, 0] : List ℚ).length ([0] : List ℚ).length ∧
      ∀ i, i < min ([0, 0] : List ℚ).length ([0] : List ℚ).length →
        oceanLandmask.contains (([0, 0] : List ℚ).getD i 0)
          (([0] : List ℚ).getD i 0) = some (r.getD i false) :=
  contains_many_truncates oceanLandmask [0, 0] [0] (by decide)
    (by intro y hy; rw [List.mem_singleton] at hy; subst hy; constructor <;> norm_num)

/-- C5: on equal lengths `contains_many` returns a sequence of the same
length whose element `i` is the single-point classifier result at `i`. -/
theorem contains_many_elementwise (l : RoaringLandmask) (xs ys : List ℚ)
    (hlen : xs.length = ys.length) (hy : ∀ y ∈ ys, -90 ≤ y ∧ y ≤ 90) :
    ∃ r, l.contains_many xs ys = some r ∧ r.length = xs.length ∧
      ∀ i, i < xs.length →
        l.contains (xs.getD i 0) (ys.getD i 0) = some (r.getD i false) := by
  obtain ⟨r, h₁, h₂, h₃⟩ := contains_many_spec l xs ys hy
  rw [← hlen, min_self] at h₂ h₃
  exact ⟨r, h₁, h₂, h₃⟩

/-- Witness for C5 at two known coordinates. -/
theorem contains_many_elementwise_witness :
    ∃ r, oceanLandmask.contains_many [15, 5] [65, 66] = some r ∧
      r.length = ([15, 5] : List ℚ).length ∧
      ∀ i, i < ([15, 5] : List ℚ).length →
        oceanLandmask.contains (([15, 5] : List ℚ).getD i 0)
          (([65, 66] : List ℚ).getD i 0) = some (r.getD i false) :=
  contains_many_elementwise oceanLandmask [15, 5] [65, 66] (by decide)
    (by
      intro y hy
      rw [List.mem_cons, List.mem_singleton] at hy
      rcases hy with rfl | rfl <;> constructor <;> norm_num)

/-- C6: on equal lengths the parallel batch query agrees with the serial
one — output slots are index-aligned, independent of worker scheduling. -/
theorem contains_many_par_eq_serial (l : RoaringLandmask) (xs ys : List ℚ)
    (hlen : xs.length = ys.length) :
    l.contains_many_par xs ys = l.contains_many xs ys := by
  unfold RoaringLandmask.contains_many_par RoaringLandmask.contains_many
  rw [if_pos hlen]
  have hzl : (xs.zip ys).length = xs.length := by
    rw [List.length_zip, hlen, min_self]
  calc mapOption (fun i => l.contains (xs.getD i 0) (ys.getD i 0))
        (List.range xs.length)
      = mapOption (fun i => l.contains ((xs.zip ys).getD i (0, 0)).1
          ((xs.zip ys).getD i (0, 0)).2) (List.range xs.length) := by
        refine mapOption_congr fun i hi => ?_
        rw [List.mem_range] at hi
        rw [getD_zip_of_lt hi (hlen ▸ hi) 0]
    _ = mapOption (fun p => l.contains p.1 p.2) (xs.zip ys) := by
        rw [← hzl]
        exact @mapOption_range_getD (ℚ × ℚ) Bool
          (fun p => l.contains p.1 p.2) (xs.zip ys) (0, 0)

/-- Witness for C6 at two equal-length inputs. -/
theorem contains_many_par_eq_serial_witness :
    oceanLandmask.contains_many_par [1, 2] [3, 4] =
      oceanLandmask.contains_many [1, 2] [3, 4] :=
  contains_many_par_eq_serial oceanLandmask [1, 2] [3, 4] (by decide)

/-- C7: a latitude of absolute value above 90° makes the single-point query
fail (process abort, the observed RangeError) instead of returning a
boolean. -/
theorem contains_out_of_range_lat (l : RoaringLandmask) (x lat : ℚ)
    (h : 90 < |lat|) : l.contains x lat = none := by
  have hm : l.mask.contains x lat = none := by
    unfold RoaringMask.contains
    rw [if_pos]
    rcases lt_abs.mp h with h' | h'
    · exact Or.inr h'
    · exact Or.inl (by linarith)
  simp [RoaringLandmask.contains, hm]

/-- Witness for C7 at latitude 95. -/
theorem contains_out_of_range_lat_witness :
    oceanLandmask.contains 5 95 = none :=
  contains_out_of_range_lat oceanLandmask 5 95 (by norm_num)

/-- C8: the classifier is periodic in longitude with period 360° on
latitudes within [-90°, 90°]. -/
theorem contains_lon_periodic (l : RoaringLandmask) (lon lat : ℚ) (k : ℤ)
    (h₁ : -90 ≤ lat) (h₂ : lat ≤ 90) :
    l.contains (lon + 360 * (k : ℚ)) lat = l.contains lon lat := by
  rw [landmask_contains_eq_some l _ _ h₁ h₂, landmask_contains_eq_some l _ _ h₁ h₂]
  unfold RoaringLandmask.containsB
  rw [canonicalLongitude_add_int_mul]

/-- Witness for C8 at longitude 15 shifted by two full revolutions. -/
theorem contains_lon_periodic_witness :
    fullLandmask.contains (15 + 360 * ((2 : ℤ) : ℚ)) 65 =
      fullLandmask.contains 15 65 :=
  contains_lon_periodic fullLandmask 15 65 2 (by norm_num) (by norm_num)

/-- C9: `new` succeeds exactly when both component loads succeed, and
propagates the first load error; no classifier value exists on failure. -/
theorem new_ok_iff_loads_ok (loadMask : Except DataError RoaringMask)
    (loadShapes : Except DataError Gshhg) :
    ((∃ l, RoaringLandmask.new loadMask loadShapes = Except.ok l) ↔
      (∃ m, loadMask = Except.ok m) ∧ ∃ s, loadShapes = Except.ok s) ∧
    (∀ e, loadMask = Except.error e →
      RoaringLandmask.new loadMask loadShapes = Except.error e) ∧
    (∀ m e, loadMask = Except.ok m → loadShapes = Except.error e →
      RoaringLandmask.new loadMask loadShapes = Except.error e) := by
  cases loadMask <;> cases loadShapes <;>
    simp [RoaringLandmask.new, Bind.bind, Except.bind, Pure.pure, Except.pure]

/-- Witness for C9: a failed bitmap load propagates its error. -/
theorem new_ok_iff_loads_ok_witness :
    RoaringLandmask.new (Except.error ⟨"truncated"⟩) (Except.ok fullShapes) =
      Except.error ⟨"truncated"⟩ :=
  (new_ok_iff_loads_ok (Except.error ⟨"truncated"⟩) (Except.ok fullShapes)).2.1
    ⟨"truncated"⟩ rfl

/-- C10: running any sequence of queries leaves the classifier unchanged,
and every result is determined by the initial classifier and the query
alone, independent of the queries around it. -/
theorem queries_leave_classifier_unchanged (l : RoaringLandmask)
    (qs : List Query) :
    runQueries l qs = (l, qs.map fun q => (runQuery l q).2) := by
  induction qs with
  | nil => rfl
  | cons q qs ih => simp only [runQueries, runQuery_fst, ih, List.map_cons]

end RoaringLandmaskSpec
